import Mathlib

/-!
Verification of the program-info state module of the Solana playground
client (storage serialization, derived public key, on-chain fetch) and of
the tutorial level comparator.

The TypeScript sources are shallowly embedded: machine-level byte buffers
become `List Nat` (each element a byte value), JavaScript values persisted
through `JSON.stringify` / `JSON.parse` become an explicit `Json` tree,
fallible operations (`Keypair.fromSecretKey`, the `PublicKey` constructor,
RPC calls, filesystem reads) return `Except`/`Option`, and the virtual
filesystem holding `.workspace/program-info.json` is a single `FsEntry`
cell.  External SDK primitives whose behaviour the module relies on
(bs58 encoding used by `PublicKey.toBase58`, the byte-length checks of the
`web3.js` constructors) are implemented faithfully to those SDKs; SDK
internals irrelevant to the claims (Anchor IDL account decoding, gzip
inflation) are kept abstract as explicit function parameters.
-/

namespace PgVerify

/-- JSON values, the image of `JSON.parse` / the domain of `JSON.stringify`.
Numbers are restricted to integers, which covers every number this module
ever persists (secret-key bytes). -/
inductive Json where
  | null : Json
  | bool (b : Bool) : Json
  | num (n : Int) : Json
  | str (s : String) : Json
  | arr (elems : List Json) : Json
  | obj (fields : List (String × Json)) : Json
deriving Repr

/-- JavaScript truthiness of a JSON value: `null`, `false`, `0` and the
empty string are falsy; arrays and objects are always truthy. -/
def Json.truthy : Json → Bool
  | .null => false
  | .bool b => b
  | .num n => n != 0
  | .str s => s != ""
  | .arr _ => true
  | .obj _ => true

/-- Property lookup on a parsed JSON object: `JSON.parse` keeps the last
occurrence of a duplicated key, so lookup scans from the right. -/
def Json.lookupField (fields : List (String × Json)) (key : String) :
    Option Json :=
  match fields with
  | [] => none
  | (k, v) :: rest =>
    match Json.lookupField rest key with
    | some v2 => some v2
    | none => if k = key then some v else none

/-- JavaScript property access `value.key`: accessing a property of `null`
throws a `TypeError`, a primitive yields `undefined` (`none`), an object
yields the field when present. -/
def Json.getField : Json → String → Except String (Option Json)
  | .null, _ => .error "TypeError: cannot read properties of null"
  | .obj fields, key => .ok (Json.lookupField fields key)
  | _, _ => .ok none

/-! ## Base58, as implemented by the `bs58` package used by `web3.js` -/

/-- The Bitcoin base58 alphabet used by `bs58`. -/
def B58_ALPHABET : List Char :=
  "123456789ABCDEFGHJKLMNPQRSTUVWXYZabcdefghijkmnopqrstuvwxyz".toList

/-- Character of a base58 digit. -/
def b58Char (d : Nat) : Char := B58_ALPHABET.getD d '?'

/-- Digit of a base58 character, `none` when the character is not in the
alphabet (`bs58.decode` throws there). -/
def b58Digit (c : Char) : Option Nat :=
  let i := B58_ALPHABET.indexOf c
  if i < B58_ALPHABET.length then some i else none

/-- Little-endian digits of `n` in base `b`, with explicit fuel so that the
definition is structural (and hence kernel-evaluable); `natDigits` supplies
enough fuel. -/
def natDigitsAux (b : Nat) : Nat → Nat → List Nat
  | 0, _ => []
  | _ + 1, 0 => []
  | fuel + 1, n + 1 => (n + 1) % b :: natDigitsAux b fuel ((n + 1) / b)

/-- Little-endian digits of `n` in base `b` (empty for `n = 0`). -/
def natDigits (b n : Nat) : List Nat := natDigitsAux b n n

/-- Number of leading elements of a list equal to `x`. -/
def leadingCount {α : Type} [DecidableEq α] (x : α) : List α → Nat
  | [] => 0
  | y :: rest => if y = x then leadingCount x rest + 1 else 0

/-- `bs58.encode`: leading zero bytes become leading `'1'` characters and
the remaining big-endian value is written in base58. -/
def base58Encode (bytes : List Nat) : String :=
  let z := leadingCount 0 bytes
  let n := Nat.ofDigits 256 bytes.reverse
  String.mk (List.replicate z '1' ++ (natDigits 58 n).reverse.map b58Char)

/-- Base58 digits of a character list, `none` as soon as one character is
outside the alphabet. -/
def b58Digits : List Char → Option (List Nat)
  | [] => some []
  | c :: rest =>
    match b58Digit c, b58Digits rest with
    | some d, some ds => some (d :: ds)
    | _, _ => none

/-- `bs58.decode`: fails on a character outside the alphabet; leading `'1'`
characters become leading zero bytes and the rest is read as a base58
number whose big-endian bytes follow. -/
def base58Decode (s : String) : Except String (List Nat) :=
  let cs := s.toList
  match b58Digits cs with
  | none => .error "Non-base58 character"
  | some ds =>
    let z := leadingCount '1' cs
    let n := Nat.ofDigits 58 ds.reverse
    .ok (List.replicate z 0 ++ (natDigits 256 n).reverse)

/-! ## `web3.js` keypairs and public keys -/

/-- A `web3.js` `PublicKey`: 32 bytes. -/
structure PublicKey where
  bytes : List Nat
deriving Repr, DecidableEq

/-- `PublicKey.prototype.toBase58`. -/
def PublicKey.toBase58 (pk : PublicKey) : String := base58Encode pk.bytes

/-- `new PublicKey(string)`: base58-decode and require exactly 32 bytes. -/
def PublicKey.fromBase58 (s : String) : Except String PublicKey :=
  match base58Decode s with
  | .error e => .error e
  | .ok bytes =>
    if bytes.length = 32 then .ok ⟨bytes⟩
    else .error "Invalid public key input"

/-- `new PublicKey(buffer)`: the buffer is read as a big-endian number,
which must fit in 32 bytes and is left-padded back to 32 bytes. -/
def PublicKey.fromBuffer (buf : List Nat) : Except String PublicKey :=
  let n := Nat.ofDigits 256 buf.reverse
  if n < 256 ^ 32 then
    let sig := (natDigits 256 n).reverse
    .ok ⟨List.replicate (32 - sig.length) 0 ++ sig⟩
  else .error "Invalid public key input"

/-- A `web3.js` `Keypair`, determined by its 64-byte secret key. -/
structure Keypair where
  secretKey : List Nat
deriving Repr, DecidableEq

/-- `Keypair.prototype.publicKey`: the last 32 bytes of the secret key. -/
def Keypair.publicKey (kp : Keypair) : PublicKey := ⟨kp.secretKey.drop 32⟩

/-- `Keypair.fromSecretKey`: requires a 64-byte secret key.  The ed25519
signature self-check the SDK additionally performs is elided; it never
alters the bytes of a keypair that passes it. -/
def Keypair.fromSecretKey (bytes : List Nat) : Except String Keypair :=
  if bytes.length = 64 then .ok ⟨bytes⟩
  else .error "bad secret key size"

/-- A well-formed keypair: 64 byte-sized entries. -/
def Keypair.wf (kp : Keypair) : Prop :=
  kp.secretKey.length = 64 ∧ ∀ b ∈ kp.secretKey, b < 256

/-- A well-formed public key: 32 byte-sized entries. -/
def PublicKey.wf (pk : PublicKey) : Prop :=
  pk.bytes.length = 32 ∧ ∀ b ∈ pk.bytes, b < 256

/-! ## Program info state (`ProgramInfo`, `defaultState`) -/

/-- An Anchor IDL is carried as its JSON value. -/
def Idl : Type := Json

/-- An imported program binary file. -/
structure ImportedProgram where
  buffer : List Nat
  fileName : String
deriving Repr

/-- The `ProgramInfo` state: every field is nullable (`Nullable` wrapper in
the source), `Option` here. -/
structure ProgramInfo where
  uuid : Option String
  kp : Option Keypair
  customPk : Option PublicKey
  idl : Option Idl
  importedProgram : Option ImportedProgram

/-- `defaultState`: every field `null`. -/
def defaultState : ProgramInfo :=
  { uuid := none, kp := none, customPk := none, idl := none,
    importedProgram := none }

/-! ## Storage (`storage.read` / `storage.write`) -/

/-- The cell of the virtual filesystem at `.workspace/program-info.json`:
either no file, a file that is not valid JSON, or a parsed JSON value
(`JSON.parse ∘ JSON.stringify` is the identity on `Json`). -/
inductive FsEntry where
  | missing : FsEntry
  | corrupt : FsEntry
  | content (j : Json) : FsEntry
deriving Repr

/-- `PgExplorer.fs.readToJSON`: fails when the file is absent or does not
parse as JSON. -/
def readToJSON : FsEntry → Except String Json
  | .missing => .error "file not found"
  | .corrupt => .error "JSON parse error"
  | .content j => .ok j

/-- `PgExplorer.fs.writeFile` of a stringified JSON value. -/
def writeFile (j : Json) (_fs : FsEntry) : FsEntry := .content j

/-- Truthiness of `PgExplorer.currentWorkspaceName` (a string or absent):
absent and the empty string are falsy. -/
def wsTruthy : Option String → Bool
  | none => false
  | some s => s != ""

/-- The `uuid` value stored by `storage.write`: `state.uuid` as-is
(a string or `null`). -/
def serializeUuid : Option String → Json
  | some s => .str s
  | none => .null

/-- The `idl` value stored by `storage.write`: `state.idl` as-is
(the IDL JSON or `null`). -/
def serializeIdl : Option Idl → Json
  | some j => j
  | none => .null

/-- The `kp` value stored by `storage.write`:
`state.kp ? Array.from(state.kp.secretKey) : null`. -/
def serializeKp : Option Keypair → Json
  | some kp => .arr (kp.secretKey.map fun b : Nat => Json.num b)
  | none => .null

/-- The `customPk` value stored by `storage.write`:
`state.customPk?.toBase58() ?? null`. -/
def serializeCustomPk : Option PublicKey → Json
  | some pk => .str pk.toBase58
  | none => .null

/-- The serialized program info written by `storage.write`: the object
literal `{uuid, idl, kp, customPk}`. -/
def serializeProgramInfo (state : ProgramInfo) : Json :=
  .obj
    [("uuid", serializeUuid state.uuid),
     ("idl", serializeIdl state.idl),
     ("kp", serializeKp state.kp),
     ("customPk", serializeCustomPk state.customPk)]

/-- `storage.write`: returns without writing when no workspace is open,
otherwise serializes the state and writes it. -/
def storageWrite (ws : Option String) (state : ProgramInfo) (fs : FsEntry) :
    FsEntry :=
  if !wsTruthy ws then fs
  else writeFile (serializeProgramInfo state) fs

/-- `Uint8Array.from` on a parsed JSON value, as used on the `kp` field:
an array of integers maps each through `ToUint8` (mod 256); any other
value yields an empty byte array (no iterator / no numeric elements
modelled beyond integers). -/
def jsonToBytes : Json → List Nat
  | .arr elems =>
    elems.map fun e =>
      match e with
      | .num n => (n % 256).toNat
      | _ => 0
  | _ => []

/-- `new PublicKey(value)` on a parsed JSON value, as used on the
`customPk` field: a string is base58-decoded; any other (truthy) value is
rejected here — `storage.write` only ever stores a string there. -/
def publicKeyOfJson : Json → Except String PublicKey
  | .str s => PublicKey.fromBase58 s
  | _ => .error "Invalid public key input"

/-- The `uuid` field as copied back by the object spread, read at the
`string | null` type of `SerializedProgramInfo`. -/
def jsonToOptStr : Option Json → Option String
  | some (.str s) => some s
  | _ => none

/-- The `idl` field as copied back by the object spread, read at the
`Idl | null` type of `SerializedProgramInfo`. -/
def jsonToOptIdl : Option Json → Option Idl
  | some .null => none
  | some j => some j
  | none => none

/-- `storage.read`: returns `defaultState` when no workspace is open or
when reading/parsing the file fails (the `try`/`catch` covers only
`readToJSON`); otherwise rebuilds the state, re-deriving `kp` and
`customPk` from their serialized forms and resetting `importedProgram`.
Failures of `Keypair.fromSecretKey` or of the `PublicKey` constructor
propagate (they are outside the `catch`). -/
def storageRead (ws : Option String) (fs : FsEntry) :
    Except String ProgramInfo :=
  if !wsTruthy ws then .ok defaultState
  else
    match readToJSON fs with
    | .error _ => .ok defaultState
    | .ok j => do
      let kpField ← j.getField "kp"
      let customPkField ← j.getField "customPk"
      let uuidField ← j.getField "uuid"
      let idlField ← j.getField "idl"
      let kp ← match kpField with
        | some v =>
          if v.truthy then do
            let kp ← Keypair.fromSecretKey (jsonToBytes v)
            pure (some kp)
          else pure none
        | none => pure none
      let customPk ← match customPkField with
        | some v =>
          if v.truthy then do
            let pk ← publicKeyOfJson v
            pure (some pk)
          else pure none
        | none => pure none
      pure
        { uuid := jsonToOptStr uuidField
          idl := jsonToOptIdl idlField
          kp := kp
          customPk := customPk
          importedProgram := defaultState.importedProgram }

/-! ## Derived public key (`derive.pk`) -/

/-- `derive.pk`: the custom public key when set, otherwise the keypair's
public key, otherwise `null`. -/
def derivePk (customPk : Option PublicKey) (kp : Option Keypair) :
    Option PublicKey :=
  match customPk with
  | some pk => some pk
  | none =>
    match kp with
    | some kp => some kp.publicKey
    | none => none

/-! ## `_PgProgramInfo.fetch` -/

/-- The result of `conn.getAccountInfo`: the account's data buffer. -/
structure AccountInfo where
  data : List Nat
deriving Repr, DecidableEq

/-- The RPC endpoint: maps an address to an account (or `none` when the
account does not exist), or raises. -/
def Rpc : Type := PublicKey → Except String (Option AccountInfo)

/-- The object `fetch` returns on success: `authority = none` models the
absence of the `authority` property. -/
structure FetchResult where
  deployed : Bool
  authority : Option PublicKey
  upgradable : Bool
deriving Repr, DecidableEq

/-- The `try` body of `fetch`, paired with the ordered trace of addresses
passed to `getAccountInfo`.  The calls are sequential: the trace records
them in program order, and the second call is issued only with the key
computed from the first call's returned data. -/
def fetchBody (rpc : Rpc) (programId : PublicKey) :
    Except String FetchResult × List PublicKey :=
  match rpc programId with
  | .error e => (.error e, [programId])
  | .ok none =>
    -- `!programAccountInfo` ⇒ `deployed = false`; `?.` makes the slice
    -- `undefined`, so `!programDataPkBuffer` returns early.
    (.ok ⟨false, none, true⟩, [programId])
  | .ok (some info) =>
    -- A Buffer (even empty) is truthy, so execution always continues here.
    match PublicKey.fromBuffer (info.data.drop 4) with
    | .error e => (.error e, [programId])
    | .ok programDataPk =>
      match rpc programDataPk with
      | .error e => (.error e, [programId, programDataPk])
      | .ok none => (.ok ⟨true, none, false⟩, [programId, programDataPk])
      | .ok (some dataInfo) =>
        -- `data.at(12)`: `undefined` and the byte 0 are both falsy.
        let authorityExists :=
          match dataInfo.data.get? 12 with
          | none => false
          | some b => b != 0
        if authorityExists then
          match PublicKey.fromBuffer ((dataInfo.data.drop 13).take 32) with
          | .error e => (.error e, [programId, programDataPk])
          | .ok upgradeAuthorityPk =>
            (.ok ⟨true, some upgradeAuthorityPk, true⟩,
              [programId, programDataPk])
        else (.ok ⟨true, none, false⟩, [programId, programDataPk])

/-- `_PgProgramInfo.fetch`: returns `undefined` (`none`) when the
connection is not ready, when no program id can be resolved, or when the
`try` body raises (the exception is caught and logged). -/
def fetch (connReady : Bool) (rpc : Rpc) (programId : Option PublicKey)
    (statePk : Option PublicKey) : Option FetchResult × List PublicKey :=
  if !connReady then (none, [])
  else
    match programId.orElse (fun _ => statePk) with
    | none => (none, [])
    | some pid =>
      match fetchBody rpc pid with
      | (.ok r, trace) => (some r, trace)
      | (.error _, trace) => (none, trace)

/-! ## `_PgProgramInfo.fetchIdl` -/

/-- The decoded Anchor IDL account: its authority and compressed data. -/
structure IdlAccount where
  authority : PublicKey
  data : List Nat

/-- The external SDK primitives `fetchIdl` calls: Anchor's IDL address
derivation and account decoding, `pako`'s inflate, and
`JSON.parse ∘ PgBytes.toUtf8`.  They are owned by third-party SDKs, so
they stay abstract parameters; the decoding and parsing steps may throw. -/
structure IdlDeps where
  idlAddress : PublicKey → PublicKey
  decodeIdlAccount : List Nat → Except String IdlAccount
  inflate : List Nat → Except String (List Nat)
  parseIdl : List Nat → Except String Idl

/-- The object `fetchIdl` returns when the IDL exists. -/
structure IdlFetchResult where
  idl : Idl
  authority : PublicKey

/-- `_PgProgramInfo.fetchIdl`: returns `null` when no program id resolves
or the IDL account does not exist.  There is no `try`/`catch` in its body:
any failure of the RPC call or of the decoding steps propagates to the
caller as an `Except.error`. -/
def fetchIdl (deps : IdlDeps) (rpc : Rpc) (programId : Option PublicKey)
    (statePk : Option PublicKey) : Except String (Option IdlFetchResult) :=
  match programId.orElse (fun _ => statePk) with
  | none => .ok none
  | some pid => do
    let idlPk := deps.idlAddress pid
    let accountInfo ← rpc idlPk
    match accountInfo with
    | none => pure none
    | some info => do
      let idlAccount ← deps.decodeIdlAccount (info.data.drop 8)
      let inflatedIdl ← deps.inflate idlAccount.data
      let idl ← deps.parseIdl inflatedIdl
      pure (some ⟨idl, idlAccount.authority⟩)

/-! ## Tutorial level comparator (`sortByLevel`) -/

/-- Modelled from the spec: `TUTORIAL_LEVELS` is imported from `utils/pg`
and its definition is absent from the provided sources; it lists the
values of the `TutorialLevel` union in difficulty order. -/
def TUTORIAL_LEVELS : List String := ["Beginner", "Intermediate", "Advanced"]

/-- JavaScript `Array.prototype.indexOf`: the first index of `x`, or `-1`
when `x` does not occur. -/
def jsIndexOf (l : List String) (x : String) : Int :=
  if x ∈ l then (l.indexOf x : Int) else -1

/-- A tutorial, as far as `sortByLevel` looks at it. -/
structure Tutorial where
  level : String

/-- `sortByLevel`: compares by position of the level in
`TUTORIAL_LEVELS`. -/
def sortByLevel (a b : Tutorial) : Int :=
  jsIndexOf TUTORIAL_LEVELS a.level - jsIndexOf TUTORIAL_LEVELS b.level

/-- `x` occurs strictly before `y` in `l`. -/
def occursBefore (l : List String) (x y : String) : Prop :=
  ∃ i j, i < j ∧ l.get? i = some x ∧ l.get? j = some y

/-! ## Base58 round-trip -/

theorem natDigitsAux_eq_digits (b : Nat) (hb : 2 ≤ b) :
    ∀ fuel n, n ≤ fuel → natDigitsAux b fuel n = Nat.digits b n := by
  intro fuel
  induction fuel with
  | zero =>
    intro n hn
    interval_cases n
    simp [natDigitsAux]
  | succ fuel ih =>
    intro n hn
    match n with
    | 0 => simp [natDigitsAux]
    | m + 1 =>
      rw [natDigitsAux, Nat.digits_def' (by omega : 1 < b) (Nat.succ_pos m)]
      congr 1
      refine ih _ ?_
      have hdiv : (m + 1) / b < m + 1 := Nat.div_lt_self (Nat.succ_pos m) (by omega)
      omega

theorem natDigits_eq_digits (b n : Nat) (hb : 2 ≤ b) :
    natDigits b n = Nat.digits b n :=
  natDigitsAux_eq_digits b hb n n le_rfl

theorem b58Digit_b58Char : ∀ d < 58, b58Digit (b58Char d) = some d := by
  decide

theorem b58Char_ne_one : ∀ d < 58, d ≠ 0 → b58Char d ≠ '1' := by
  decide

theorem b58Digit_one : b58Digit '1' = some 0 := by decide

theorem b58Digits_replicate_one (z : Nat) :
    b58Digits (List.replicate z '1') = some (List.replicate z 0) := by
  induction z with
  | zero => rfl
  | succ z ih => simp [List.replicate_succ, b58Digits, b58Digit_one, ih]

theorem b58Digits_map_b58Char (ds : List Nat) (h : ∀ d ∈ ds, d < 58) :
    b58Digits (ds.map b58Char) = some ds := by
  induction ds with
  | nil => rfl
  | cons d t ih =>
    have hd : d < 58 := h d (List.mem_cons_self d t)
    simp [b58Digits, b58Digit_b58Char d hd,
      ih (fun x hx => h x (List.mem_cons_of_mem d hx))]

theorem b58Digits_append (l1 l2 : List Char) (r1 r2 : List Nat)
    (h1 : b58Digits l1 = some r1) (h2 : b58Digits l2 = some r2) :
    b58Digits (l1 ++ l2) = some (r1 ++ r2) := by
  induction l1 generalizing r1 with
  | nil =>
    simp only [b58Digits, Option.some.injEq] at h1
    simpa [← h1] using h2
  | cons a t ih =>
    simp only [b58Digits] at h1
    match ha : b58Digit a with
    | none => simp [ha] at h1
    | some d =>
      match htm : b58Digits t with
      | none => simp [ha, htm] at h1
      | some rt =>
        simp only [ha, htm, Option.some.injEq] at h1
        subst h1
        simp [b58Digits, ha, ih rt htm]

theorem leadingCount_replicate_append {α : Type} [DecidableEq α] (x : α)
    (z : Nat) (rest : List α) (h : rest.head? ≠ some x) :
    leadingCount x (List.replicate z x ++ rest) = z := by
  induction z with
  | zero =>
    match rest with
    | [] => rfl
    | y :: t =>
      have hyx : y ≠ x := fun hyx => h (by simp [hyx])
      simp [leadingCount, hyx]
  | succ z ih => simp [List.replicate_succ, leadingCount, ih]

theorem leadingCount_decomp {α : Type} [DecidableEq α] (x : α) :
    ∀ l : List α, ∃ rest, l = List.replicate (leadingCount x l) x ++ rest ∧
      rest.head? ≠ some x := by
  intro l
  induction l with
  | nil => exact ⟨[], by simp [leadingCount]⟩
  | cons y t ih =>
    by_cases hyx : y = x
    · obtain ⟨rest, hrest, hhead⟩ := ih
      refine ⟨rest, ?_, hhead⟩
      subst hyx
      simp [leadingCount, List.replicate_succ]
      exact hrest
    · exact ⟨y :: t, by simp [leadingCount, hyx], by simp [hyx]⟩

theorem ofDigits_replicate_zero (b z : Nat) :
    Nat.ofDigits b (List.replicate z 0) = 0 := by
  induction z with
  | zero => rfl
  | succ z ih => simp [List.replicate_succ, Nat.ofDigits_cons, ih]

theorem ofDigits_ne_zero_of_getLast {b : Nat} (hb : b ≠ 0) (l : List Nat)
    (hl : l ≠ []) (hlast : l.getLast hl ≠ 0) : Nat.ofDigits b l ≠ 0 := by
  intro hz
  exact hlast (Nat.digits_zero_of_eq_zero hb hz _ (List.getLast_mem hl))

theorem toList_base58Encode (bytes : List Nat) :
    (base58Encode bytes).toList =
      List.replicate (leadingCount 0 bytes) '1' ++
        (natDigits 58 (Nat.ofDigits 256 bytes.reverse)).reverse.map b58Char :=
  rfl

theorem base58Decode_eq (s : String) (ds : List Nat)
    (h : b58Digits s.toList = some ds) :
    base58Decode s = .ok (List.replicate (leadingCount '1' s.toList) 0 ++
      (natDigits 256 (Nat.ofDigits 58 ds.reverse)).reverse) := by
  rw [base58Decode, h]

theorem base58_roundTrip_core (z : Nat) (rest : List Nat)
    (hhead : rest.head? ≠ some 0) (hrest : ∀ b ∈ rest, b < 256) :
    base58Decode (base58Encode (List.replicate z 0 ++ rest)) =
      .ok (List.replicate z 0 ++ rest) := by
  have hlc : leadingCount 0 (List.replicate z 0 ++ rest) = z :=
    leadingCount_replicate_append 0 z rest hhead
  have hnval : Nat.ofDigits 256 (List.replicate z 0 ++ rest).reverse =
      Nat.ofDigits 256 rest.reverse := by
    rw [List.reverse_append, List.reverse_replicate, Nat.ofDigits_append,
      ofDigits_replicate_zero]
    ring
  have hlc1 : leadingCount '1' (List.replicate z '1') = z := by
    have := leadingCount_replicate_append '1' z [] (by simp)
    simpa using this
  match rest with
  | [] =>
    have hn0 : Nat.ofDigits 256 (List.replicate z 0 ++ ([] : List Nat)).reverse = 0 := by
      simpa using hnval
    have htl : (base58Encode (List.replicate z 0 ++ [])).toList =
        List.replicate z '1' := by
      rw [toList_base58Encode, hlc, hn0]
      simp [natDigits, natDigitsAux]
    rw [base58Decode_eq _ (List.replicate z 0)
      (by rw [htl]; exact b58Digits_replicate_one z), htl, hlc1,
      List.reverse_replicate, ofDigits_replicate_zero]
    simp [natDigits, natDigitsAux]
  | c :: t =>
    have hc : c ≠ 0 := fun hc0 => hhead (by simp [hc0])
    have hrevne : (c :: t).reverse ≠ [] := by simp
    have hlastc : (c :: t).reverse.getLast hrevne = c := by
      rw [List.getLast_reverse]
      rfl
    have hn : Nat.ofDigits 256 (c :: t).reverse ≠ 0 :=
      ofDigits_ne_zero_of_getLast (by norm_num) _ hrevne
        (by rw [hlastc]; exact hc)
    have hnd : natDigits 58 (Nat.ofDigits 256 (List.replicate z 0 ++ c :: t).reverse) =
        Nat.digits 58 (Nat.ofDigits 256 (c :: t).reverse) := by
      rw [hnval, natDigits_eq_digits _ _ (by norm_num)]
    have hdne : Nat.digits 58 (Nat.ofDigits 256 (c :: t).reverse) ≠ [] :=
      Nat.digits_ne_nil_iff_ne_zero.mpr hn
    have hdlt : ∀ d ∈ Nat.digits 58 (Nat.ofDigits 256 (c :: t).reverse), d < 58 :=
      fun d hd => Nat.digits_lt_base (by norm_num) hd
    have hdrevlt : ∀ d ∈ (Nat.digits 58 (Nat.ofDigits 256 (c :: t).reverse)).reverse,
        d < 58 := fun d hd => hdlt d (List.mem_reverse.mp hd)
    have hdrevne : (Nat.digits 58 (Nat.ofDigits 256 (c :: t).reverse)).reverse ≠ [] := by
      simpa using hdne
    -- head of the reversed digit list is the most significant digit: nonzero
    have hheadd : (Nat.digits 58 (Nat.ofDigits 256 (c :: t).reverse)).reverse.head
        hdrevne ≠ 0 := by
      rw [List.head_reverse]
      exact Nat.getLast_digit_ne_zero 58 hn
    have hmapne : ((Nat.digits 58 (Nat.ofDigits 256 (c :: t).reverse)).reverse.map
        b58Char).head? ≠ some '1' := by
      rw [List.head?_eq_head (by simpa using hdrevne), List.head_map]
      intro hcontra
      have hmem : (Nat.digits 58 (Nat.ofDigits 256 (c :: t).reverse)).reverse.head
          hdrevne ∈ (Nat.digits 58 (Nat.ofDigits 256 (c :: t).reverse)).reverse :=
        List.head_mem hdrevne
      exact b58Char_ne_one _ (hdrevlt _ hmem) hheadd (by simpa using hcontra)
    have htl : (base58Encode (List.replicate z 0 ++ c :: t)).toList =
        List.replicate z '1' ++
          (Nat.digits 58 (Nat.ofDigits 256 (c :: t).reverse)).reverse.map b58Char := by
      rw [toList_base58Encode, hlc, hnd]
    have hds : b58Digits (base58Encode (List.replicate z 0 ++ c :: t)).toList =
        some (List.replicate z 0 ++
          (Nat.digits 58 (Nat.ofDigits 256 (c :: t).reverse)).reverse) := by
      rw [htl]
      exact b58Digits_append _ _ _ _ (b58Digits_replicate_one z)
        (b58Digits_map_b58Char _ hdrevlt)
    rw [base58Decode_eq _ _ hds, htl,
      leadingCount_replicate_append '1' z _ hmapne,
      List.reverse_append, List.reverse_reverse, List.reverse_replicate,
      Nat.ofDigits_append, ofDigits_replicate_zero, Nat.ofDigits_digits,
      Nat.mul_zero, Nat.add_zero, natDigits_eq_digits _ _ (by norm_num),
      Nat.digits_ofDigits 256 (by norm_num) _
        (fun x hx => hrest x (List.mem_reverse.mp hx))
        (fun _ => by rw [hlastc]; exact hc),
      List.reverse_reverse]

theorem base58Encode_ne_empty (bytes : List Nat) (h : bytes ≠ []) :
    base58Encode bytes ≠ "" := by
  intro hempty
  have hlist : List.replicate (leadingCount 0 bytes) '1' ++
      (natDigits 58 (Nat.ofDigits 256 bytes.reverse)).reverse.map b58Char = [] := by
    have hcongr := congrArg String.toList hempty
    rw [toList_base58Encode] at hcongr
    simpa using hcongr
  rw [List.append_eq_nil] at hlist
  obtain ⟨hz, hmap⟩ := hlist
  have hz0 : leadingCount 0 bytes = 0 := by
    simpa [List.replicate_eq_nil_iff] using hz
  match bytes, h with
  | c :: t, _ =>
    by_cases hc : c = 0
    · rw [hc] at hz0
      simp [leadingCount] at hz0
    · have hrevne : (c :: t).reverse ≠ [] := by simp
      have hlastc : (c :: t).reverse.getLast hrevne = c := by
        rw [List.getLast_reverse]
        rfl
      have hn : Nat.ofDigits 256 (c :: t).reverse ≠ 0 :=
        ofDigits_ne_zero_of_getLast (by norm_num) _ hrevne
          (by rw [hlastc]; exact hc)
      have hdig : natDigits 58 (Nat.ofDigits 256 (c :: t).reverse) = [] := by
        have := List.map_eq_nil_iff.mp hmap
        simpa using this
      rw [natDigits_eq_digits _ _ (by norm_num)] at hdig
      exact Nat.digits_ne_nil_iff_ne_zero.mpr hn hdig

theorem base58_roundTrip (bytes : List Nat) (hbytes : ∀ b ∈ bytes, b < 256) :
    base58Decode (base58Encode bytes) = .ok bytes := by
  obtain ⟨rest, hl, hhead⟩ := leadingCount_decomp 0 bytes
  calc base58Decode (base58Encode bytes)
      = base58Decode (base58Encode
          (List.replicate (leadingCount 0 bytes) 0 ++ rest)) := by rw [← hl]
    _ = .ok (List.replicate (leadingCount 0 bytes) 0 ++ rest) := by
        refine base58_roundTrip_core _ _ hhead ?_
        intro b hb
        exact hbytes b (hl ▸ List.mem_append_right _ hb)
    _ = .ok bytes := by rw [← hl]

theorem fromBase58_toBase58 (pk : PublicKey) (hwf : pk.wf) :
    PublicKey.fromBase58 pk.toBase58 = .ok pk := by
  rw [PublicKey.fromBase58, PublicKey.toBase58,
    base58_roundTrip pk.bytes hwf.2]
  simp [hwf.1]

theorem toBase58_truthy (pk : PublicKey) (hwf : pk.wf) :
    (Json.str pk.toBase58).truthy = true := by
  have hne : pk.bytes ≠ [] := by
    intro hnil
    have h32 := hwf.1
    rw [hnil] at h32
    simp at h32
  simpa [Json.truthy] using base58Encode_ne_empty pk.bytes hne

theorem jsonToBytes_secretKey (kp : Keypair) (hwf : kp.wf) :
    jsonToBytes (.arr (kp.secretKey.map fun b : Nat => Json.num b)) =
      kp.secretKey := by
  rw [jsonToBytes, List.map_map]
  have hid : ∀ b ∈ kp.secretKey,
      ((fun e => match e with
                 | Json.num n => (n % 256).toNat
                 | _ => 0) ∘ (fun b : Nat => Json.num b)) b = b := by
    intro b hb
    have hblt : b < 256 := hwf.2 b hb
    simp only [Function.comp_apply]
    omega
  rw [List.map_congr_left hid]
  simp

theorem fromSecretKey_ok (kp : Keypair) (h64 : kp.secretKey.length = 64) :
    Keypair.fromSecretKey kp.secretKey = .ok kp := by
  rw [Keypair.fromSecretKey, if_pos h64]

/-- The tail of `storage.read` after the `kp` field has been rebuilt:
reconstruction of `customPk` followed by the final record. -/
def readKpCont (u i c : Json) (kpv : Option Keypair) :
    Except String ProgramInfo :=
  if c.truthy then
    Except.bind (publicKeyOfJson c) (fun pk => Except.ok
      { uuid := jsonToOptStr (some u), idl := jsonToOptIdl (some i),
        kp := kpv, customPk := some pk, importedProgram := none })
  else Except.ok
    { uuid := jsonToOptStr (some u), idl := jsonToOptIdl (some i),
      kp := kpv, customPk := none, importedProgram := none }

/-- Shape of `storage.read` on a successfully parsed serialized object:
the field lookups succeed and what remains is the reconstruction of `kp`
and `customPk`. -/
theorem storageRead_content (ws : Option String) (hws : wsTruthy ws = true)
    (u i k c : Json) :
    storageRead ws (.content (.obj
        [("uuid", u), ("idl", i), ("kp", k), ("customPk", c)])) =
      (if k.truthy then
        Except.bind (Keypair.fromSecretKey (jsonToBytes k))
          (fun kp => readKpCont u i c (some kp))
      else readKpCont u i c none) := by
  rw [storageRead, hws]
  rfl

theorem read_serializeKp (u i c : Json) (k : Option Keypair)
    (h : ∀ kp ∈ k, kp.wf) :
    (if (serializeKp k).truthy then
      Except.bind (Keypair.fromSecretKey (jsonToBytes (serializeKp k)))
        (fun kp => readKpCont u i c (some kp))
    else readKpCont u i c none) = readKpCont u i c k := by
  match k with
  | none => rfl
  | some kp =>
    have hwf : kp.wf := h kp rfl
    rw [serializeKp, jsonToBytes_secretKey kp hwf,
      fromSecretKey_ok kp hwf.1]
    rfl

theorem readKpCont_serialize (u i : Json) (c : Option PublicKey)
    (h : ∀ pk ∈ c, pk.wf) (kpv : Option Keypair) :
    readKpCont u i (serializeCustomPk c) kpv = .ok
      { uuid := jsonToOptStr (some u), idl := jsonToOptIdl (some i),
        kp := kpv, customPk := c, importedProgram := none } := by
  match c with
  | none => rfl
  | some pk =>
    have hwf : pk.wf := h pk rfl
    rw [serializeCustomPk, readKpCont, if_pos (toBase58_truthy pk hwf)]
    show Except.bind (PublicKey.fromBase58 pk.toBase58) _ = _
    rw [fromBase58_toBase58 pk hwf]
    rfl

theorem uuid_roundTrip (u : Option String) :
    jsonToOptStr (some (serializeUuid u)) = u := by
  match u with
  | none => rfl
  | some s => rfl

theorem idl_roundTrip (i : Option Idl) (h : i ≠ some Json.null) :
    jsonToOptIdl (some (serializeIdl i)) = i := by
  match i with
  | none => rfl
  | some j =>
    match j with
    | Json.null => exact absurd rfl h
    | Json.bool b => rfl
    | Json.num n => rfl
    | Json.str s => rfl
    | Json.arr l => rfl
    | Json.obj f => rfl

/-- Writing a well-formed state and reading it back restores every field
except `importedProgram`, which is reset to `null`. -/
theorem storage_roundTrip (ws : Option String) (fs : FsEntry)
    (state : ProgramInfo) (hws : wsTruthy ws = true)
    (hkp : ∀ kp ∈ state.kp, kp.wf) (hpk : ∀ pk ∈ state.customPk, pk.wf)
    (hidl : state.idl ≠ some Json.null) :
    storageRead ws (storageWrite ws state fs) =
      .ok { uuid := state.uuid, kp := state.kp, customPk := state.customPk,
            idl := state.idl, importedProgram := none } := by
  have hw : storageWrite ws state fs =
      .content (serializeProgramInfo state) := by
    rw [storageWrite, hws]
    rfl
  rw [hw, serializeProgramInfo, storageRead_content ws hws,
    read_serializeKp _ _ _ state.kp hkp,
    readKpCont_serialize _ _ state.customPk hpk,
    uuid_roundTrip, idl_roundTrip state.idl hidl]

/-! ## Comparator support -/

theorem get?_eq_some_of_indexOf {l : List String} {x : String} (hx : x ∈ l) :
    l.get? (l.indexOf x) = some x := by
  have hlt : l.indexOf x < l.length := List.indexOf_lt_length.mpr hx
  rw [List.get?_eq_getElem? l (l.indexOf x), List.getElem?_eq_getElem hlt,
    List.getElem_indexOf hlt]

theorem indexOf_eq_of_get? {l : List String} {x : String} {i : Nat}
    (hnd : l.Nodup) (hi : l.get? i = some x) : l.indexOf x = i := by
  have hilt : i < l.length := (List.get?_eq_some.mp hi).choose
  have hgi : l[i] = x := by
    have := List.getElem?_eq_getElem hilt
    rw [← List.get?_eq_getElem?, hi] at this
    exact (Option.some.inj this).symm
  have hx : x ∈ l := hgi ▸ List.getElem_mem hilt
  have hlt : l.indexOf x < l.length := List.indexOf_lt_length.mpr hx
  have h2 : l.get ⟨l.indexOf x, hlt⟩ = l.get ⟨i, hilt⟩ := by
    simp only [List.get_eq_getElem]
    rw [List.getElem_indexOf hlt, hgi]
  have := @List.Nodup.getElem_inj_iff _ l hnd (l.indexOf x) hlt i hilt
  simp only [List.get_eq_getElem] at h2
  exact this.mp h2

theorem indexOf_lt_iff_occursBefore (l : List String) (hnd : l.Nodup)
    (x y : String) (hx : x ∈ l) (hy : y ∈ l) :
    l.indexOf x < l.indexOf y ↔ occursBefore l x y := by
  constructor
  · intro hlt
    exact ⟨l.indexOf x, l.indexOf y, hlt, get?_eq_some_of_indexOf hx,
      get?_eq_some_of_indexOf hy⟩
  · rintro ⟨i, j, hij, hgi, hgj⟩
    rw [indexOf_eq_of_get? hnd hgi, indexOf_eq_of_get? hnd hgj]
    exact hij

/-! ## Claims -/

/-- C3: in every execution of `storage.read` in which reading or
JSON-parsing the persisted file fails, `storage.read` returns the default
empty state (all of `uuid`, `kp`, `customPk`, `idl`, `importedProgram`
null) instead of raising. -/
theorem C3_read_failure_returns_default (ws : Option String) (fs : FsEntry)
    (e : String) (h : readToJSON fs = .error e) :
    storageRead ws fs =
      .ok (⟨none, none, none, none, none⟩ : ProgramInfo) := by
  by_cases hws : wsTruthy ws = true
  · rw [storageRead, hws, h]
    rfl
  · have hws2 : wsTruthy ws = false := by
      revert hws
      cases wsTruthy ws <;> simp
    rw [storageRead, hws2]
    rfl

/-- C3 witness: a missing file reads back as the default empty state. -/
theorem C3_witness : readToJSON FsEntry.missing = .error "file not found" ∧
    storageRead (some "w") FsEntry.missing =
      .ok (⟨none, none, none, none, none⟩ : ProgramInfo) :=
  ⟨rfl, C3_read_failure_returns_default (some "w") FsEntry.missing
    "file not found" rfl⟩

/-- C9: with no workspace open, `storage.read` returns the default empty
state whatever the filesystem holds (it never consults it), and
`storage.write` leaves the filesystem unchanged. -/
theorem C9_no_workspace_frame (fs : FsEntry) (state : ProgramInfo) :
    storageRead none fs = .ok defaultState ∧
    storageWrite none state fs = fs :=
  ⟨rfl, rfl⟩

/-- C6: the derived public key is the custom public key when set,
otherwise the keypair public key when the keypair is set, otherwise
null. -/
theorem C6_derive_pk (state : ProgramInfo) :
    (∀ pk, state.customPk = some pk →
      derivePk state.customPk state.kp = some pk) ∧
    (state.customPk = none → ∀ kp, state.kp = some kp →
      derivePk state.customPk state.kp = some kp.publicKey) ∧
    (state.customPk = none → state.kp = none →
      derivePk state.customPk state.kp = none) := by
  refine ⟨?_, ?_, ?_⟩
  · intro pk hpk
    rw [hpk]
    rfl
  · intro hc kp hkp
    rw [hc, hkp]
    rfl
  · intro hc hk
    rw [hc, hk]
    rfl

/-- C6 witness: the three branches at concrete states. -/
theorem C6_witness :
    derivePk (some ⟨List.replicate 32 2⟩) (some ⟨List.replicate 64 1⟩) =
      some ⟨List.replicate 32 2⟩ ∧
    derivePk none (some ⟨List.replicate 64 1⟩) =
      some (Keypair.publicKey ⟨List.replicate 64 1⟩) ∧
    derivePk none (none : Option Keypair) = none :=
  ⟨(C6_derive_pk ⟨none, some ⟨List.replicate 64 1⟩,
      some ⟨List.replicate 32 2⟩, none, none⟩).1 ⟨List.replicate 32 2⟩ rfl,
   (C6_derive_pk ⟨none, some ⟨List.replicate 64 1⟩, none, none, none⟩).2.1
      rfl ⟨List.replicate 64 1⟩ rfl,
   (C6_derive_pk ⟨none, none, none, none, none⟩).2.2 rfl rfl⟩


/-- C1: with a workspace open, writing a program-info state whose keypair
is valid (or null) and whose custom public key is valid (or null), then
reading it back, restores `uuid`, `kp` (compared by secret key),
`customPk` (compared by base58 string) and `idl`.  (An `idl`, when
present, is an IDL JSON document, never the JSON value `null`.) -/
theorem C1_write_read_roundTrip (ws : Option String) (fs : FsEntry)
    (state : ProgramInfo) (hws : wsTruthy ws = true)
    (hkp : ∀ kp ∈ state.kp, kp.wf) (hpk : ∀ pk ∈ state.customPk, pk.wf)
    (hidl : state.idl ≠ some Json.null) :
    ∃ state2, storageRead ws (storageWrite ws state fs) = .ok state2 ∧
      state2.uuid = state.uuid ∧
      state2.kp.map Keypair.secretKey = state.kp.map Keypair.secretKey ∧
      state2.customPk.map PublicKey.toBase58 =
        state.customPk.map PublicKey.toBase58 ∧
      state2.idl = state.idl :=
  ⟨_, storage_roundTrip ws fs state hws hkp hpk hidl, rfl, rfl, rfl, rfl⟩

/-- The concrete state used to witness C1. -/
def c1State : ProgramInfo :=
  ⟨some "f3a1", some ⟨List.replicate 64 7⟩, some ⟨1 :: List.replicate 31 0⟩,
    some (Json.obj [("version", Json.str "0.1.0")]), none⟩

/-- C1 witness: the round trip at a concrete workspace and state. -/
theorem C1_witness :
    ∃ state2, storageRead (some "w") (storageWrite (some "w") c1State
        FsEntry.missing) = .ok state2 ∧
      state2.uuid = c1State.uuid ∧
      state2.kp.map Keypair.secretKey = c1State.kp.map Keypair.secretKey ∧
      state2.customPk.map PublicKey.toBase58 =
        c1State.customPk.map PublicKey.toBase58 ∧
      state2.idl = c1State.idl :=
  C1_write_read_roundTrip (some "w") FsEntry.missing c1State (by decide)
    (by intro kp hkp
        rw [Option.mem_def] at hkp
        have hk2 : (⟨List.replicate 64 7⟩ : Keypair) = kp :=
          Option.some.inj hkp
        rw [← hk2]
        exact ⟨by decide, by decide⟩)
    (by intro pk hpk
        rw [Option.mem_def] at hpk
        have hk2 : (⟨1 :: List.replicate 31 0⟩ : PublicKey) = pk :=
          Option.some.inj hpk
        rw [← hk2]
        exact ⟨by decide, by decide⟩)
    (by intro hnull
        have h2 : Json.obj [("version", Json.str "0.1.0")] = Json.null :=
          Option.some.inj hnull
        cases h2)

/-- C4: with a workspace open, the file written by `storage.write` is a
JSON object with exactly the fields `uuid`, `idl`, `kp`, `customPk`; `kp`
holds the keypair secret-key bytes as a number array (or null), `customPk`
the base58 string of the custom key (or null), `idl` the IDL JSON (or
null). -/
theorem C4_persisted_file_shape (ws : Option String) (state : ProgramInfo)
    (fs : FsEntry) (hws : wsTruthy ws = true) :
    ∃ fields, storageWrite ws state fs = .content (.obj fields) ∧
      fields.map Prod.fst = ["uuid", "idl", "kp", "customPk"] ∧
      (∀ kp, state.kp = some kp → Json.lookupField fields "kp" =
        some (.arr (kp.secretKey.map fun b : Nat => Json.num b))) ∧
      (state.kp = none → Json.lookupField fields "kp" = some .null) ∧
      (∀ pk, state.customPk = some pk → Json.lookupField fields "customPk" =
        some (.str pk.toBase58)) ∧
      (state.customPk = none →
        Json.lookupField fields "customPk" = some .null) ∧
      (∀ idl, state.idl = some idl →
        Json.lookupField fields "idl" = some idl) ∧
      (state.idl = none → Json.lookupField fields "idl" = some .null) ∧
      (∀ u, state.uuid = some u →
        Json.lookupField fields "uuid" = some (.str u)) ∧
      (state.uuid = none → Json.lookupField fields "uuid" = some .null) := by
  refine ⟨[("uuid", serializeUuid state.uuid), ("idl", serializeIdl state.idl),
    ("kp", serializeKp state.kp),
    ("customPk", serializeCustomPk state.customPk)], ?_, rfl,
    ?_, ?_, ?_, ?_, ?_, ?_, ?_, ?_⟩
  · rw [storageWrite, hws]
    rfl
  · intro kp hkp
    rw [hkp]
    rfl
  · intro hkp
    rw [hkp]
    rfl
  · intro pk hpk
    rw [hpk]
    rfl
  · intro hpk
    rw [hpk]
    rfl
  · intro idl hidl
    rw [hidl]
    rfl
  · intro hidl
    rw [hidl]
    rfl
  · intro u hu
    rw [hu]
    rfl
  · intro hu
    rw [hu]
    rfl

/-- C4 witness: the persisted shape at a concrete workspace and state. -/
theorem C4_witness :
    ∃ fields, storageWrite (some "w") c1State FsEntry.missing =
        .content (.obj fields) ∧
      fields.map Prod.fst = ["uuid", "idl", "kp", "customPk"] ∧
      (∀ kp, c1State.kp = some kp → Json.lookupField fields "kp" =
        some (.arr (kp.secretKey.map fun b : Nat => Json.num b))) ∧
      (c1State.kp = none → Json.lookupField fields "kp" = some .null) ∧
      (∀ pk, c1State.customPk = some pk →
        Json.lookupField fields "customPk" = some (.str pk.toBase58)) ∧
      (c1State.customPk = none →
        Json.lookupField fields "customPk" = some .null) ∧
      (∀ idl, c1State.idl = some idl →
        Json.lookupField fields "idl" = some idl) ∧
      (c1State.idl = none → Json.lookupField fields "idl" = some .null) ∧
      (∀ u, c1State.uuid = some u →
        Json.lookupField fields "uuid" = some (.str u)) ∧
      (c1State.uuid = none → Json.lookupField fields "uuid" = some .null) :=
  C4_persisted_file_shape (some "w") c1State FsEntry.missing (by decide)

/-- The concrete state used to refute C5: it has an imported program. -/
def c5State : ProgramInfo :=
  ⟨none, none, none, none, some ⟨[1, 2, 3], "program.so"⟩⟩

/-- C5 counterexample: writing a state whose `importedProgram` is set and
reading it back yields `importedProgram = null` — the imported binary is
not mirrored to the JSON file, refuting the claim that every field
round-trips. -/
theorem C5_counterexample :
    (∃ st ∈ c5State.importedProgram, st.fileName = "program.so") ∧
    storageRead (some "w") (storageWrite (some "w") c5State
        FsEntry.missing) =
      .ok (⟨none, none, none, none, none⟩ : ProgramInfo) :=
  ⟨⟨⟨[1, 2, 3], "program.so"⟩, rfl, rfl⟩, rfl⟩

/-- C5 (amended): `uuid`, `kp`, `customPk` and `idl` are mirrored to the
JSON file and restored by a read, but `importedProgram` is not persisted:
reading back a written state always yields `importedProgram = null`. -/
theorem C5_amended_mirror (ws : Option String) (fs : FsEntry)
    (state : ProgramInfo) (hws : wsTruthy ws = true)
    (hkp : ∀ kp ∈ state.kp, kp.wf) (hpk : ∀ pk ∈ state.customPk, pk.wf)
    (hidl : state.idl ≠ some Json.null) :
    ∃ state2, storageRead ws (storageWrite ws state fs) = .ok state2 ∧
      state2.uuid = state.uuid ∧ state2.kp = state.kp ∧
      state2.customPk = state.customPk ∧ state2.idl = state.idl ∧
      state2.importedProgram = none :=
  ⟨_, storage_roundTrip ws fs state hws hkp hpk hidl, rfl, rfl, rfl, rfl,
    rfl⟩

/-- C5 amended witness: the amended round trip at a concrete state with an
imported program present. -/
theorem C5_amended_witness :
    ∃ state2, storageRead (some "w") (storageWrite (some "w") c5State
        FsEntry.missing) = .ok state2 ∧
      state2.uuid = c5State.uuid ∧ state2.kp = c5State.kp ∧
      state2.customPk = c5State.customPk ∧ state2.idl = c5State.idl ∧
      state2.importedProgram = none :=
  C5_amended_mirror (some "w") FsEntry.missing c5State (by decide)
    (by intro kp hkp; cases hkp) (by intro pk hpk; cases hpk)
    (by intro hnull; cases hnull)

/-- C10: for tutorials whose levels occur in `TUTORIAL_LEVELS`,
`sortByLevel` is a valid antisymmetric comparator, and it sorts `a` before
`b` exactly when `a`'s level occurs strictly before `b`'s. -/
theorem C10_sortByLevel_comparator (a b : Tutorial)
    (ha : a.level ∈ TUTORIAL_LEVELS) (hb : b.level ∈ TUTORIAL_LEVELS) :
    sortByLevel a b = -sortByLevel b a ∧
    sortByLevel a a = 0 ∧
    (sortByLevel a b < 0 ↔
      occursBefore TUTORIAL_LEVELS a.level b.level) := by
  refine ⟨by rw [sortByLevel, sortByLevel]; ring,
    by rw [sortByLevel]; ring, ?_⟩
  rw [sortByLevel, jsIndexOf, jsIndexOf, if_pos ha, if_pos hb]
  rw [← indexOf_lt_iff_occursBefore TUTORIAL_LEVELS (by decide)
    a.level b.level ha hb]
  omega

/-- C10 witness: the comparator at two concrete tutorials. -/
theorem C10_witness :
    sortByLevel ⟨"Beginner"⟩ ⟨"Advanced"⟩ =
      -sortByLevel ⟨"Advanced"⟩ ⟨"Beginner"⟩ ∧
    sortByLevel ⟨"Beginner"⟩ ⟨"Beginner"⟩ = 0 ∧
    (sortByLevel ⟨"Beginner"⟩ ⟨"Advanced"⟩ < 0 ↔
      occursBefore TUTORIAL_LEVELS "Beginner" "Advanced") :=
  C10_sortByLevel_comparator ⟨"Beginner"⟩ ⟨"Advanced"⟩ (by decide)
    (by decide)


/-! ## Fetch trace structure -/

theorem fetchBody_trace (rpc : Rpc) (pid : PublicKey) :
    (fetchBody rpc pid).2 = [pid] ∨
    ∃ info pdPk, rpc pid = .ok (some info) ∧
      PublicKey.fromBuffer (info.data.drop 4) = .ok pdPk ∧
      (fetchBody rpc pid).2 = [pid, pdPk] := by
  cases h1 : rpc pid with
  | error e => left; simp only [fetchBody, h1]
  | ok oinfo =>
    cases oinfo with
    | none => left; simp only [fetchBody, h1]
    | some info =>
      cases h2 : PublicKey.fromBuffer (info.data.drop 4) with
      | error e => left; simp only [fetchBody, h1, h2]
      | ok pdPk =>
        right
        refine ⟨info, pdPk, rfl, h2, ?_⟩
        simp only [fetchBody, h1, h2]
        cases h3 : rpc pdPk with
        | error e => rfl
        | ok odi =>
          cases odi with
          | none => rfl
          | some di =>
            dsimp only
            by_cases h4 : (match di.data.get? 12 with
              | none => false
              | some b => b != 0) = true
            · rw [if_pos h4]
              cases h5 : PublicKey.fromBuffer ((di.data.drop 13).take 32) <;>
                rfl
            · rw [if_neg h4]

theorem fetch_resolved (rpc : Rpc) (programId statePk : Option PublicKey)
    (pid : PublicKey) (h : programId.orElse (fun _ => statePk) = some pid) :
    fetch true rpc programId statePk =
      (match fetchBody rpc pid with
       | (.ok r, trace) => (some r, trace)
       | (.error _, trace) => (none, trace)) := by
  rw [fetch, h]
  rfl

theorem fetch_trace_eq (rpc : Rpc) (programId statePk : Option PublicKey)
    (pid : PublicKey) (h : programId.orElse (fun _ => statePk) = some pid) :
    (fetch true rpc programId statePk).2 = (fetchBody rpc pid).2 := by
  rw [fetch_resolved rpc programId statePk pid h]
  cases hb : fetchBody rpc pid with
  | mk res tr => cases res <;> rfl

theorem fetch_trace_nil (rpc : Rpc) (programId statePk : Option PublicKey)
    (h : programId.orElse (fun _ => statePk) = none) :
    (fetch true rpc programId statePk).2 = [] := by
  rw [fetch, h]
  rfl

/-- C7: `fetch` makes at most two `getAccountInfo` calls and no retries;
the trace records the awaited calls in program order, so the second call
(when made) happens only after the first has returned, its address being
the public key built from bytes 4 onward of the first call's account
data; the first call's address is the resolved program id. -/
theorem C7_fetch_sequential (connReady : Bool) (rpc : Rpc)
    (programId statePk : Option PublicKey) :
    (fetch connReady rpc programId statePk).2.length ≤ 2 ∧
    (∀ a rest, (fetch connReady rpc programId statePk).2 = a :: rest →
      programId.orElse (fun _ => statePk) = some a) ∧
    (∀ a b rest,
      (fetch connReady rpc programId statePk).2 = a :: b :: rest →
      rest = [] ∧ ∃ info, rpc a = .ok (some info) ∧
        PublicKey.fromBuffer (info.data.drop 4) = .ok b) := by
  cases connReady with
  | false =>
    have ht : (fetch false rpc programId statePk).2 = [] := rfl
    refine ⟨by rw [ht]; simp, ?_, ?_⟩
    · intro a rest h
      rw [ht] at h
      exact List.noConfusion h
    · intro a b rest h
      rw [ht] at h
      exact List.noConfusion h
  | true =>
    cases hres : programId.orElse (fun _ => statePk) with
    | none =>
      have ht := fetch_trace_nil rpc programId statePk hres
      refine ⟨by rw [ht]; simp, ?_, ?_⟩
      · intro a rest h
        rw [ht] at h
        exact List.noConfusion h
      · intro a b rest h
        rw [ht] at h
        exact List.noConfusion h
    | some pid =>
      have ht := fetch_trace_eq rpc programId statePk pid hres
      rcases fetchBody_trace rpc pid with hb | ⟨info, pdPk, h1, h2, hb⟩
      · refine ⟨by rw [ht, hb]; simp, ?_, ?_⟩
        · intro a rest h
          rw [ht, hb] at h
          injection h with ha _
          subst ha
          rfl
        · intro a b rest h
          rw [ht, hb] at h
          injection h with _ htl
          exact List.noConfusion htl
      · refine ⟨by rw [ht, hb]; simp, ?_, ?_⟩
        · intro a rest h
          rw [ht, hb] at h
          injection h with ha _
          subst ha
          rfl
        · intro a b rest h
          rw [ht, hb] at h
          injection h with ha htl
          injection htl with hb2 htl2
          subst ha
          subst hb2
          exact ⟨htl2.symm, info, h1, h2⟩

/-- The program account address used by the C7/C8 witnesses. -/
def pidW : PublicKey := ⟨List.replicate 32 9⟩

/-- The program account returned for `pidW`: a 4-byte tag followed by the
program-data address bytes. -/
def infoW : AccountInfo := ⟨List.replicate 4 0 ++ 1 :: List.replicate 31 0⟩

/-- The program-data address encoded in `infoW`. -/
def pdPkW : PublicKey := ⟨1 :: List.replicate 31 0⟩

/-- A concrete RPC oracle: `pidW` exists with data `infoW`, every other
account is absent. -/
def rpcW : Rpc := fun pk => if pk = pidW then .ok (some infoW) else .ok none

/-- C7 witness: with the concrete oracle `rpcW` both calls happen, and the
second call address is the key read from bytes 4 onward of the first
call's data. -/
theorem C7_witness :
    ([] : List PublicKey) = [] ∧ ∃ info, rpcW pidW = .ok (some info) ∧
      PublicKey.fromBuffer (info.data.drop 4) = .ok pdPkW :=
  (C7_fetch_sequential true rpcW (some pidW) none).2.2 pidW pdPkW []
    (by rfl)

/-- C8: with a ready connection and a resolved program id whose account
does not exist on chain, `fetch` returns deployed = false with no
authority and upgradable = true. -/
theorem C8_not_deployed_upgradable (rpc : Rpc)
    (programId statePk : Option PublicKey) (pid : PublicKey)
    (hpid : programId.orElse (fun _ => statePk) = some pid)
    (hnull : rpc pid = .ok none) :
    (fetch true rpc programId statePk).1 =
      some ⟨false, none, true⟩ := by
  have hbody : fetchBody rpc pid = (.ok ⟨false, none, true⟩, [pid]) := by
    simp only [fetchBody, hnull]
  rw [fetch_resolved rpc programId statePk pid hpid, hbody]

/-- C8 witness: the no-account result at a concrete id and oracle. -/
theorem C8_witness :
    (fetch true (fun _ => Except.ok none) (some pidW) none).1 =
      some ⟨false, none, true⟩ :=
  C8_not_deployed_upgradable (fun _ => Except.ok none) (some pidW) none
    pidW rfl rfl

/-- A concrete RPC oracle that always raises. -/
def badRpc : Rpc := fun _ => .error "RPC failure"

/-- Concrete stand-ins for the external IDL helpers, used only to
instantiate `fetchIdl` at a concrete point. -/
def stubDeps : IdlDeps :=
  ⟨fun pk => pk, fun _ => .error "decode", fun _ => .ok [],
    fun _ => .error "parse"⟩

/-- C2 counterexample: `fetchIdl` has no `try`/`catch`; when the RPC call
raises, the caller receives the propagated exception, not an
undefined/absent result — refuting the claim for `fetchIdl`. -/
theorem C2_counterexample :
    fetchIdl stubDeps badRpc (some ⟨List.replicate 32 3⟩) none =
      .error "RPC failure" := rfl

/-- C2 (amended): failures raised inside `fetch`'s `try` body are caught
(and logged), the caller receiving undefined; `fetchIdl`, by contrast, has
no catch and propagates RPC failures to its caller. -/
theorem C2_amended_error_handling :
    (∀ (rpc : Rpc) (programId statePk : Option PublicKey)
        (pid : PublicKey) (e : String) (tr : List PublicKey),
      programId.orElse (fun _ => statePk) = some pid →
      fetchBody rpc pid = (.error e, tr) →
      (fetch true rpc programId statePk).1 = none) ∧
    (∀ (deps : IdlDeps) (rpc : Rpc) (pid : PublicKey)
        (statePk : Option PublicKey) (e : String),
      rpc (deps.idlAddress pid) = .error e →
      fetchIdl deps rpc (some pid) statePk = .error e) := by
  constructor
  · intro rpc programId statePk pid e tr hpid hbody
    rw [fetch_resolved rpc programId statePk pid hpid, hbody]
  · intro deps rpc pid statePk e h
    rw [fetchIdl]
    show Except.bind (rpc (deps.idlAddress pid)) _ = Except.error e
    rw [h]
    rfl

/-- C2 witness: the amended behaviour at concrete oracles. -/
theorem C2_witness :
    (fetch true badRpc (some ⟨List.replicate 32 3⟩) none).1 = none ∧
    fetchIdl stubDeps badRpc (some ⟨List.replicate 32 3⟩) none =
      .error "RPC failure" :=
  ⟨C2_amended_error_handling.1 badRpc (some ⟨List.replicate 32 3⟩) none
      ⟨List.replicate 32 3⟩ "RPC failure" [⟨List.replicate 32 3⟩] rfl rfl,
   C2_amended_error_handling.2 stubDeps badRpc ⟨List.replicate 32 3⟩ none
      "RPC failure" rfl⟩

end PgVerify
